import Mathlib

/-!
Verification of the PolicyRadar policies API (`src/app/api/routers/policies.py`)
against its natural-language specification.

Shallow embedding conventions:
* SQLAlchemy `Float` columns are modelled as `ℚ` (the spec reasons about exact
  means and comparisons, not floating-point rounding).
* `DateTime` columns are modelled as `Int` time points; a `timedelta(days=d)`
  is the integer `d` in the same unit, so `datetime.utcnow() - timedelta(days=days)`
  becomes `now - days`.
* Nullable columns are `Option _`.  SQL three-valued logic is embedded by
  making every comparison against `NULL` evaluate to `false` in a `WHERE`
  clause (a `NULL` comparison is not satisfied).
* The database table reached through the ORM session is an explicit list of
  rows; `query.all()` is the list itself, `offset`/`limit` are `drop`/`take`,
  and `ORDER BY` is `List.insertionSort` with the corresponding key order
  (PostgreSQL places `NULL`s last in `ASC` order and we model exactly that;
  no claim depends on the order of ties).
* Python truthiness of the optional query parameters (`if jurisdiction: ...`)
  is embedded per type: `None` is falsy, an empty string is falsy, the
  integer 0 is falsy, and a `datetime` object is always truthy.
-/

namespace PolicyRadar

/-- The `PolicyStatus` enumeration from `src/data/models/policy.py` (lines 14-22).
Members are `DRAFT`, `PROPOSED`, `ENACTED`, `IMPLEMENTED`, `AMENDED`,
`REPEALED`, `EXPIRED`; the Python `.value` strings are lowercase but
SQLAlchemy persists and filters on the member *names*. -/
inductive PolicyStatus where
  | DRAFT
  | PROPOSED
  | ENACTED
  | IMPLEMENTED
  | AMENDED
  | REPEALED
  | EXPIRED
deriving DecidableEq, Repr

/-- The `.name` of a `PolicyStatus` member, which is also the string SQLAlchemy
stores for the `Enum(PolicyStatus)` column and compares against in SQL. -/
def statusName : PolicyStatus → String
  | .DRAFT => "DRAFT"
  | .PROPOSED => "PROPOSED"
  | .ENACTED => "ENACTED"
  | .IMPLEMENTED => "IMPLEMENTED"
  | .AMENDED => "AMENDED"
  | .REPEALED => "REPEALED"
  | .EXPIRED => "EXPIRED"

/-- The `PolicyType` enumeration from `src/data/models/policy.py` (lines 25-32). -/
inductive PolicyType where
  | LEGISLATION
  | REGULATION
  | EXECUTIVE_ORDER
  | GUIDANCE
  | STANDARD
  | AGREEMENT
deriving DecidableEq, Repr

/-- The mutable fields of a `Policy` row / `PolicySchema` payload
(`src/data/models/policy.py`, `Policy` model lines 49-84 and `PolicySchema`
lines 124-153): every field the schema accepts except the server-assigned
`id`. -/
structure PolicyFields where
  title : String
  description : Option String
  policy_number : String
  jurisdiction : String
  policy_type : PolicyType
  status : PolicyStatus
  proposed_date : Option Int
  enacted_date : Option Int
  effective_date : Option Int
  expiration_date : Option Int
  regulatory_body : Option String
  authority : Option String
  content_summary : Option String
  full_text_url : Option String
  source_url : Option String
  estimated_impact : Option ℚ
  impact_confidence : Option ℚ
  affected_industries : Option (List String)
  category_id : Option Int
deriving DecidableEq, Repr

/-- A persisted `Policy` row: the integer primary key from the shared base
model (`src/data/models/base.py` line 15) plus the policy fields. -/
structure PolicyRow where
  id : Int
  fields : PolicyFields
deriving DecidableEq, Repr

/-- Runtime values occurring in the Python comparisons of the analytics
summary: a `PolicyStatus` enum member (what `p.status` holds on an ORM-loaded
instance, since SQLAlchemy's `Enum(PolicyStatus)` converts the stored name
back to the member) or a `str`. -/
inductive PyVal where
  | enumStatus (s : PolicyStatus)
  | str (s : String)

/-- Python `==` on these values: strings compare by content, enum members by
identity, and a cross-type comparison of an `enum.Enum` member with a `str`
is `False` (Python `enum.Enum` inherits identity-based `__eq__` from
`object`). -/
def pyEq : PyVal → PyVal → Bool
  | .enumStatus a, .enumStatus b => a == b
  | .str a, .str b => a == b
  | _, _ => false

/-! ### Analytics summary (`get_policy_analytics_summary`, lines 160-214)

The statistics are computed in Python over the fetched list `policies`;
the definitions below embed lines 181-199 one for one. -/

/-- Line 181: `total_policies = len(policies)`. -/
def total_policies (policies : List PolicyRow) : Nat :=
  policies.length

/-- Line 182: `enacted_policies = len([p for p in policies if p.status == "ENACTED"])`.
`p.status` is a `PolicyStatus` member, `"ENACTED"` a string, compared with
Python `==`. -/
def enacted_policies (policies : List PolicyRow) : Nat :=
  (policies.filter fun p => pyEq (.enumStatus p.fields.status) (.str "ENACTED")).length

/-- Line 183: `proposed_policies = len([p for p in policies if p.status == "PROPOSED"])`. -/
def proposed_policies (policies : List PolicyRow) : Nat :=
  (policies.filter fun p => pyEq (.enumStatus p.fields.status) (.str "PROPOSED")).length

/-- Line 186: `impacts = [p.estimated_impact for p in policies if p.estimated_impact is not None]`. -/
def summaryImpacts (policies : List PolicyRow) : List ℚ :=
  policies.filterMap fun p => p.fields.estimated_impact

/-- Line 187: `average_impact = sum(impacts) / len(impacts) if impacts else 0`. -/
def average_impact (policies : List PolicyRow) : ℚ :=
  let impacts := summaryImpacts policies
  if impacts.isEmpty then 0 else impacts.sum / (impacts.length : ℚ)

/-- Line 197: `if policy.affected_industries:` — the tag list a policy
contributes to the industry breakdown; `None` and the empty list are falsy
and contribute nothing. -/
def tagsOf (p : PolicyRow) : List String :=
  match p.fields.affected_industries with
  | none => []
  | some l => if l.isEmpty then [] else l

/-- Line 199: `industry_counts[industry] = industry_counts.get(industry, 0) + 1`,
the Python dict modelled as its lookup function. -/
def bumpCount (m : String → Nat) (k : String) : String → Nat :=
  fun x => if x = k then m k + 1 else m x

/-- Lines 195-199: the `industry_counts` dict after iterating the fetched
policies, as a lookup function (each policy contributes one increment per
element of its truthy `affected_industries` list). -/
def industry_counts (policies : List PolicyRow) : String → Nat :=
  policies.foldl (fun m p => (tagsOf p).foldl bumpCount m) (fun _ => 0)

/-- A concrete, fully specified policy payload used for evaluations. -/
def samplePolicyFields : PolicyFields :=
  { title := "Test"
    description := some "A policy for carbon pricing"
    policy_number := "US-TST-0001"
    jurisdiction := "US"
    policy_type := .REGULATION
    status := .DRAFT
    proposed_date := some 19700
    enacted_date := none
    effective_date := none
    expiration_date := none
    regulatory_body := some "EPA"
    authority := none
    content_summary := some "Summary text"
    full_text_url := none
    source_url := none
    estimated_impact := some (-150)
    impact_confidence := some (mkRat 7 10)
    affected_industries := some ["energy", "transport"]
    category_id := none }

/-- A row whose status is `ENACTED`: the failing input for claim C1. -/
def enactedRow : PolicyRow :=
  { id := 1, fields := { samplePolicyFields with status := .ENACTED } }

/-- A row whose status is `PROPOSED`. -/
def proposedRow : PolicyRow :=
  { id := 2, fields := { samplePolicyFields with status := .PROPOSED } }

/-- Claim C1 (code bug): the summary is supposed to report the count of
policies whose status is `ENACTED` (resp. `PROPOSED`), but on a fetched set
consisting of exactly one `ENACTED` and one `PROPOSED` policy the code
computes `enacted_policies = 0` and `proposed_policies = 0`, because
`p.status == "ENACTED"` compares a `PolicyStatus` enum member with a string,
which is always `False` in Python; only the total count is right. -/
theorem C1_status_counts_always_zero :
    enactedRow.fields.status = PolicyStatus.ENACTED ∧
    proposedRow.fields.status = PolicyStatus.PROPOSED ∧
    total_policies [enactedRow, proposedRow] = 2 ∧
    enacted_policies [enactedRow, proposedRow] = 0 ∧
    proposed_policies [enactedRow, proposedRow] = 0 :=
  ⟨rfl, rfl, rfl, rfl, rfl⟩

/-- Claim C2: `average_impact` is the mean of `estimated_impact` over the
records where it is non-null, and it is `0` (not `NaN`, not an error) when no
such record exists. -/
theorem C2_average_impact_mean_or_zero (policies : List PolicyRow) :
    (summaryImpacts policies ≠ [] →
      average_impact policies =
        (summaryImpacts policies).sum / ((summaryImpacts policies).length : ℚ)) ∧
    (summaryImpacts policies = [] → average_impact policies = 0) := by
  constructor
  · intro h
    unfold average_impact
    simp [List.isEmpty_iff, h]
  · intro h
    unfold average_impact
    simp [List.isEmpty_iff, h]

/-- A row with a null `estimated_impact`. -/
def nullImpactRow : PolicyRow :=
  { id := 3, fields := { samplePolicyFields with estimated_impact := none } }

/-- A row with `estimated_impact = -50`. -/
def impactRow : PolicyRow :=
  { id := 4, fields := { samplePolicyFields with estimated_impact := some (-50) } }

/-- Witness for C2: on `[enactedRow, impactRow, nullImpactRow]` the non-null
impacts are `[-150, -50]` and the theorem yields the mean `-100`; on a set
with only null impacts it yields `0`. -/
theorem C2_average_impact_mean_or_zero_witness :
    average_impact [enactedRow, impactRow, nullImpactRow] = -100 ∧
    average_impact [nullImpactRow] = 0 := by
  constructor
  · have h := (C2_average_impact_mean_or_zero [enactedRow, impactRow, nullImpactRow]).1
      (by decide)
    rw [h, show summaryImpacts [enactedRow, impactRow, nullImpactRow] = [-150, -50] from rfl]
    norm_num [List.sum_cons, List.sum_nil]
  · exact (C2_average_impact_mean_or_zero [nullImpactRow]).2 (by decide)

/-- Folding the dict update of line 199 over a tag list adds, at every key,
the number of occurrences of that key in the list. -/
theorem foldl_bumpCount (l : List String) (m : String → Nat) (t : String) :
    (l.foldl bumpCount m) t = m t + l.count t := by
  induction l generalizing m with
  | nil => simp [List.count_nil]
  | cons a l ih =>
    simp only [List.foldl_cons, ih, List.count_cons, beq_iff_eq, bumpCount]
    by_cases h : t = a
    · subst h; simp; omega
    · simp [h, Ne.symm h]

/-- Appending one policy to the fetched set adds, at every industry key, the
number of occurrences of that key in the policy's (truthy) tag list. -/
theorem industry_counts_append (ps : List PolicyRow) (p : PolicyRow) (t : String) :
    industry_counts (ps ++ [p]) t = industry_counts ps t + (tagsOf p).count t := by
  unfold industry_counts
  rw [List.foldl_append]
  simp [foldl_bumpCount]

/-- Summing the indicator of a key over a key list counts its occurrences. -/
theorem sum_ite_count (a : String) (keys : List String) :
    (keys.map fun t => if a = t then 1 else 0).sum = keys.count a := by
  induction keys with
  | nil => simp
  | cons k ks ihk =>
    simp only [List.map_cons, List.sum_cons, ihk, List.count_cons, beq_iff_eq]
    by_cases h : a = k
    · subst h; simp; omega
    · simp [h, Ne.symm h]

/-- Prepending an occurrence to a list raises the key-indexed count sum by the
number of occurrences of that key among the keys. -/
theorem sum_count_cons (a : String) (l : List String) (keys : List String) :
    (keys.map fun t => (a :: l).count t).sum
      = (keys.map fun t => l.count t).sum + keys.count a := by
  induction keys with
  | nil => simp
  | cons k ks ihk =>
    simp only [List.map_cons, List.sum_cons, ihk, List.count_cons, beq_iff_eq,
      sum_ite_count]
    by_cases h : a = k
    · subst h; simp [sum_ite_count]; omega
    · simp [h, Ne.symm h, sum_ite_count]; omega

/-- Summing the per-key occurrence counts of a list over a duplicate-free key
list covering the list's elements yields the list's length. -/
theorem sum_count_over_keys (l : List String) :
    ∀ keys : List String, keys.Nodup → (∀ t ∈ l, t ∈ keys) →
      (keys.map fun t => l.count t).sum = l.length := by
  induction l with
  | nil => intro keys _ _; simp [List.count_nil]
  | cons a l ih =>
    intro keys hnd hsub
    rw [sum_count_cons, ih keys hnd (fun t ht => hsub t (List.mem_cons_of_mem a ht)),
      List.count_eq_one_of_mem hnd (hsub a (List.mem_cons_self a l))]
    simp

/-- Claim C3: in the analytics summary's industry breakdown a policy with N
(distinct) tags in `affected_industries` increments N distinct buckets by one
each — appending it to the fetched set raises its own tags' buckets by one,
leaves every other bucket unchanged, and raises the total of the breakdown
(summed over any duplicate-free key cover) by N. -/
theorem C3_industry_breakdown_per_tag (ps : List PolicyRow) (p : PolicyRow)
    (hnd : (tagsOf p).Nodup) :
    (∀ t ∈ tagsOf p, industry_counts (ps ++ [p]) t = industry_counts ps t + 1) ∧
    (∀ t, t ∉ tagsOf p → industry_counts (ps ++ [p]) t = industry_counts ps t) ∧
    (∀ keys : List String, keys.Nodup → (∀ t ∈ tagsOf p, t ∈ keys) →
      (keys.map (industry_counts (ps ++ [p]))).sum
        = (keys.map (industry_counts ps)).sum + (tagsOf p).length) := by
  refine ⟨?_, ?_, ?_⟩
  · intro t ht
    rw [industry_counts_append, List.count_eq_one_of_mem hnd ht]
  · intro t ht
    rw [industry_counts_append, List.count_eq_zero_of_not_mem ht]
    simp
  · intro keys hk hcov
    have hsplit : (keys.map (industry_counts (ps ++ [p]))).sum
        = (keys.map (industry_counts ps)).sum
          + (keys.map fun t => (tagsOf p).count t).sum := by
      clear hcov
      induction keys with
      | nil => simp
      | cons k ks ihk =>
        simp only [List.map_cons, List.sum_cons, ihk (List.Nodup.of_cons hk),
          industry_counts_append]
        omega
    rw [hsplit, sum_count_over_keys (tagsOf p) keys hk hcov]

/-- A policy carrying three industry tags not all present elsewhere. -/
def threeTagRow : PolicyRow :=
  { id := 5
    fields := { samplePolicyFields with
                  affected_industries := some ["energy", "finance", "health"] } }

/-- Witness for C3: appending `threeTagRow` (tags energy, finance, health) to
`[proposedRow]` (tags energy, transport) bumps the energy bucket from 1 to 2,
creates finance at 1, leaves steel at 0, and raises the breakdown total over
the key cover by 3. -/
theorem C3_industry_breakdown_per_tag_witness :
    industry_counts ([proposedRow] ++ [threeTagRow]) "energy" = 2 ∧
    industry_counts ([proposedRow] ++ [threeTagRow]) "finance" = 1 ∧
    industry_counts ([proposedRow] ++ [threeTagRow]) "steel" = 0 ∧
    (["energy", "transport", "finance", "health"].map
        (industry_counts ([proposedRow] ++ [threeTagRow]))).sum
      = (["energy", "transport", "finance", "health"].map
          (industry_counts [proposedRow])).sum + 3 := by
  have h := C3_industry_breakdown_per_tag [proposedRow] threeTagRow (by decide)
  refine ⟨?_, ?_, ?_, ?_⟩
  · rw [h.1 "energy" (by decide)]; decide
  · rw [h.1 "finance" (by decide)]; decide
  · rw [h.2.1 "steel" (by decide)]; decide
  · rw [h.2.2 ["energy", "transport", "finance", "health"] (by decide) (by decide)]
    decide

/-! ### High-risk listing (`get_high_risk_policies`, lines 258-273) and
recent listing (`get_recent_policies`, lines 239-255) -/

/-- SQL `column < constant` on a nullable numeric column: `NULL` comparisons
are not satisfied. -/
def sqlLt (o : Option ℚ) (c : ℚ) : Bool :=
  match o with
  | none => false
  | some x => decide (x < c)

/-- Lines 266-268: `(Policy.estimated_impact < -100) | (Policy.impact_confidence < 0.6)`. -/
def high_risk_pred (p : PolicyRow) : Bool :=
  sqlLt p.fields.estimated_impact (-100) || sqlLt p.fields.impact_confidence (mkRat 6 10)

/-- The key order of `ORDER BY estimated_impact ASC` (PostgreSQL: `NULL`s
last in ascending order). -/
def impactAscLE (a b : PolicyRow) : Bool :=
  match a.fields.estimated_impact, b.fields.estimated_impact with
  | some x, some y => decide (x ≤ y)
  | some _, none => true
  | none, some _ => false
  | none, none => true

/-- Relation form of `impactAscLE`, decidable for sorting. -/
def impactAscR : PolicyRow → PolicyRow → Prop :=
  fun a b => impactAscLE a b = true

instance : DecidableRel impactAscR :=
  fun a b => Bool.decEq (impactAscLE a b) true

/-- Totality of `impactAscLE`. -/
theorem impactAscLE_total (a b : PolicyRow) :
    impactAscLE a b = true ∨ impactAscLE b a = true := by
  unfold impactAscLE
  cases a.fields.estimated_impact <;> cases b.fields.estimated_impact <;> simp
  exact le_total _ _

/-- Transitivity of `impactAscLE`. -/
theorem impactAscLE_trans (a b c : PolicyRow) :
    impactAscLE a b = true → impactAscLE b c = true → impactAscLE a c = true := by
  unfold impactAscLE
  cases a.fields.estimated_impact <;> cases b.fields.estimated_impact <;>
    cases c.fields.estimated_impact <;> simp
  exact fun h1 h2 => le_trans h1 h2

instance : IsTotal PolicyRow impactAscR := ⟨impactAscLE_total⟩

instance : IsTrans PolicyRow impactAscR := ⟨impactAscLE_trans⟩

/-- Lines 266-269: filter on the high-risk disjunction, `ORDER BY
estimated_impact ASC`, then `LIMIT`. -/
def get_high_risk_policies (db : List PolicyRow) (limit : Nat) : List PolicyRow :=
  (List.insertionSort impactAscR (db.filter high_risk_pred)).take limit

/-- Membership in a truncated sort of a filtered list implies the filter. -/
theorem pred_of_mem_take_sort (r : PolicyRow → PolicyRow → Prop) [DecidableRel r]
    (pred : PolicyRow → Bool) (db : List PolicyRow) (n : Nat) (p : PolicyRow)
    (hp : p ∈ (List.insertionSort r (db.filter pred)).take n) : pred p = true :=
  (List.mem_filter.mp
    (((List.perm_insertionSort r (db.filter pred)).mem_iff).mp
      (List.mem_of_mem_take hp))).2

/-- A truncated insertion sort is pairwise ordered by the sort relation. -/
theorem pairwise_take_sort (r : PolicyRow → PolicyRow → Prop) [DecidableRel r]
    [IsTotal PolicyRow r] [IsTrans PolicyRow r] (l : List PolicyRow) (n : Nat) :
    ((List.insertionSort r l).take n).Pairwise r :=
  List.Pairwise.sublist (List.take_sublist n _) (List.sorted_insertionSort r l)

/-- The high-risk filter holds exactly when the estimated impact is below
−100 or the impact confidence is below 0.6 (null fields fail both disjuncts). -/
theorem high_risk_pred_iff (p : PolicyRow) :
    high_risk_pred p = true ↔
      (∃ x, p.fields.estimated_impact = some x ∧ x < -100) ∨
      (∃ c, p.fields.impact_confidence = some c ∧ c < 6/10) := by
  have h610 : mkRat 6 10 = 6/10 := by norm_num
  unfold high_risk_pred sqlLt
  simp only [h610]
  cases p.fields.estimated_impact <;> cases p.fields.impact_confidence <;> simp

/-- Claim C4: every policy returned by the high-risk listing satisfies
(estimated_impact < −100) OR (impact_confidence < 0.6), and the returned list
is ascending by estimated_impact (most negative first; rows whose
`estimated_impact` is `NULL` sort last and impose no numeric constraint). -/
theorem C4_high_risk_filter_and_order (db : List PolicyRow) (limit : Nat) :
    (∀ p ∈ get_high_risk_policies db limit,
        (∃ x, p.fields.estimated_impact = some x ∧ x < -100) ∨
        (∃ c, p.fields.impact_confidence = some c ∧ c < 6/10)) ∧
    (get_high_risk_policies db limit).Pairwise
      (fun a b => ∀ x y, a.fields.estimated_impact = some x →
        b.fields.estimated_impact = some y → x ≤ y) := by
  constructor
  · intro p hp
    exact (high_risk_pred_iff p).mp
      (pred_of_mem_take_sort impactAscR high_risk_pred db limit p hp)
  · refine (pairwise_take_sort impactAscR (db.filter high_risk_pred) limit).imp ?_
    intro a b hab x y hx hy
    unfold impactAscR impactAscLE at hab
    rw [hx, hy] at hab
    simpa using hab

/-- High-risk by impact: estimated impact −150. -/
def hrImpactRow : PolicyRow :=
  { id := 11, fields := { samplePolicyFields with
                            estimated_impact := some (-150)
                            impact_confidence := some (mkRat 9 10) } }

/-- High-risk by confidence only: impact 10, confidence 0.5. -/
def hrConfRow : PolicyRow :=
  { id := 12, fields := { samplePolicyFields with
                            estimated_impact := some 10
                            impact_confidence := some (mkRat 1 2) } }

/-- High-risk by impact with null confidence. -/
def hrNullConfRow : PolicyRow :=
  { id := 13, fields := { samplePolicyFields with
                            estimated_impact := some (-500)
                            impact_confidence := none } }

/-- Witness for C4 on a concrete three-row table. -/
theorem C4_high_risk_filter_and_order_witness :
    ((∃ x, hrConfRow.fields.estimated_impact = some x ∧ x < -100) ∨
     (∃ c, hrConfRow.fields.impact_confidence = some c ∧ c < 6/10)) ∧
    (get_high_risk_policies [hrImpactRow, hrConfRow, hrNullConfRow] 50).Pairwise
      (fun a b => ∀ x y, a.fields.estimated_impact = some x →
        b.fields.estimated_impact = some y → x ≤ y) :=
  ⟨(C4_high_risk_filter_and_order [hrImpactRow, hrConfRow, hrNullConfRow] 50).1
      hrConfRow (by decide),
   (C4_high_risk_filter_and_order [hrImpactRow, hrConfRow, hrNullConfRow] 50).2⟩

/-- SQL `column >= constant` on a nullable date column: `NULL` is not ≥
anything. -/
def sqlGeDate (o : Option Int) (c : Int) : Bool :=
  match o with
  | none => false
  | some d => decide (c ≤ d)

/-- Lines 249-250: `Policy.proposed_date >= cutoff_date` where line 247 sets
`cutoff_date = datetime.utcnow() - timedelta(days=days)`. -/
def recent_pred (cutoff : Int) (p : PolicyRow) : Bool :=
  sqlGeDate p.fields.proposed_date cutoff

/-- The key order of `ORDER BY proposed_date DESC` (`NULL`s cannot occur in
the filtered set but the order places them last for definiteness). -/
def dateDescLE (a b : PolicyRow) : Bool :=
  match a.fields.proposed_date, b.fields.proposed_date with
  | some x, some y => decide (y ≤ x)
  | some _, none => true
  | none, some _ => false
  | none, none => true

/-- Relation form of `dateDescLE`, decidable for sorting. -/
def dateDescR : PolicyRow → PolicyRow → Prop :=
  fun a b => dateDescLE a b = true

instance : DecidableRel dateDescR :=
  fun a b => Bool.decEq (dateDescLE a b) true

/-- Totality of `dateDescLE`. -/
theorem dateDescLE_total (a b : PolicyRow) :
    dateDescLE a b = true ∨ dateDescLE b a = true := by
  unfold dateDescLE
  cases a.fields.proposed_date <;> cases b.fields.proposed_date <;> simp
  exact (le_total _ _).symm

/-- Transitivity of `dateDescLE`. -/
theorem dateDescLE_trans (a b c : PolicyRow) :
    dateDescLE a b = true → dateDescLE b c = true → dateDescLE a c = true := by
  unfold dateDescLE
  cases a.fields.proposed_date <;> cases b.fields.proposed_date <;>
    cases c.fields.proposed_date <;> simp
  exact fun h1 h2 => le_trans h2 h1

instance : IsTotal PolicyRow dateDescR := ⟨dateDescLE_total⟩

instance : IsTrans PolicyRow dateDescR := ⟨dateDescLE_trans⟩

/-- Lines 247-251: cutoff at `now - days`, filter `proposed_date >= cutoff`,
`ORDER BY proposed_date DESC`, then `LIMIT`. -/
def get_recent_policies (now days : Int) (db : List PolicyRow) (limit : Nat) :
    List PolicyRow :=
  (List.insertionSort dateDescR (db.filter (recent_pred (now - days)))).take limit

/-- Claim C5: every policy returned by the recent listing has a (non-null)
proposed_date ≥ now − days, and the returned list is descending by
proposed_date. -/
theorem C5_recent_filter_and_order (now days : Int) (db : List PolicyRow)
    (limit : Nat) :
    (∀ p ∈ get_recent_policies now days db limit,
        ∃ d, p.fields.proposed_date = some d ∧ now - days ≤ d) ∧
    (get_recent_policies now days db limit).Pairwise
      (fun a b => ∀ x y, a.fields.proposed_date = some x →
        b.fields.proposed_date = some y → y ≤ x) := by
  constructor
  · intro p hp
    have h := pred_of_mem_take_sort dateDescR (recent_pred (now - days)) db limit p hp
    unfold recent_pred sqlGeDate at h
    cases hd : p.fields.proposed_date with
    | none => rw [hd] at h; exact absurd h (by simp)
    | some d => rw [hd] at h; exact ⟨d, rfl, by simpa using h⟩
  · refine (pairwise_take_sort dateDescR (db.filter (recent_pred (now - days)))
      limit).imp ?_
    intro a b hab x y hx hy
    unfold dateDescR dateDescLE at hab
    rw [hx, hy] at hab
    simpa using hab

/-- Proposed 100 days before `now = 20000`. -/
def oldRow : PolicyRow :=
  { id := 21, fields := { samplePolicyFields with proposed_date := some 19900 } }

/-- Proposed 5 days before `now = 20000`. -/
def freshRow : PolicyRow :=
  { id := 22, fields := { samplePolicyFields with proposed_date := some 19995 } }

/-- Witness for C5 at `now = 20000`, `days = 30`: only the 5-day-old policy
is returned and its date is in range. -/
theorem C5_recent_filter_and_order_witness :
    (∃ d, freshRow.fields.proposed_date = some d ∧ 20000 - 30 ≤ d) ∧
    (get_recent_policies 20000 30 [oldRow, freshRow] 50).Pairwise
      (fun a b => ∀ x y, a.fields.proposed_date = some x →
        b.fields.proposed_date = some y → y ≤ x) :=
  ⟨(C5_recent_filter_and_order 20000 30 [oldRow, freshRow] 50).1
      freshRow (by decide),
   (C5_recent_filter_and_order 20000 30 [oldRow, freshRow] 50).2⟩

/-! ### CRUD on `/policies` (`create_policy` lines 72-86, `get_policy` 55-69,
`update_policy` 89-111, `delete_policy` 114-132)

The ORM session over the `policies` table is modelled as an explicit state:
the rows plus the autoincrement counter of the integer primary key
(`src/data/models/base.py` line 15).  `db.add` + `db.commit` + `db.refresh`
assign the next id; `query.filter(Policy.id == policy_id).first()` is
`find?` on the rows. -/

/-- A `PolicySchema` payload as accepted and returned by the API: the
optional `id` plus every other schema field. -/
structure PolicySchema where
  id : Option Int
  fields : PolicyFields
deriving DecidableEq, Repr

/-- The `policies` table: persisted rows and the autoincrement counter. -/
structure PolicyTable where
  nextId : Int
  rows : List (Int × PolicyFields)
deriving DecidableEq, Repr

/-- Lines 79-83: `Policy(**policy.dict(exclude={"id"}))` is inserted —
any client-supplied `id` is discarded and the database assigns the next id;
the refreshed row is returned. -/
def create_policy (db : PolicyTable) (policy : PolicySchema) :
    PolicyTable × PolicySchema :=
  ({ nextId := db.nextId + 1, rows := db.rows ++ [(db.nextId, policy.fields)] },
   { id := some db.nextId, fields := policy.fields })

/-- Lines 62-65: `first()` on `Policy.id == policy_id`, 404 when absent. -/
def get_policy (db : PolicyTable) (policy_id : Int) : Except Nat PolicySchema :=
  match db.rows.find? (fun r => r.1 == policy_id) with
  | none => .error 404
  | some r => .ok { id := some r.1, fields := r.2 }

/-- Lines 97-106: look up the row (404 when absent), then
`setattr(db_policy, key, value)` for every key of `policy.dict(exclude={"id"})`
— a total overwrite of all fields except the identifier. -/
def update_policy (db : PolicyTable) (policy_id : Int) (policy : PolicySchema) :
    Except Nat (PolicyTable × PolicySchema) :=
  match db.rows.find? (fun r => r.1 == policy_id) with
  | none => .error 404
  | some _ =>
    .ok ({ nextId := db.nextId,
           rows := db.rows.map fun r =>
             if r.1 == policy_id then (r.1, policy.fields) else r },
         { id := some policy_id, fields := policy.fields })

/-- Lines 121-127: look up the row (404 when absent), then `db.delete`. -/
def delete_policy (db : PolicyTable) (policy_id : Int) : Except Nat PolicyTable :=
  match db.rows.find? (fun r => r.1 == policy_id) with
  | none => .error 404
  | some _ =>
    .ok { nextId := db.nextId, rows := db.rows.filter fun r => !(r.1 == policy_id) }

/-- On rows none of which carry the key, lookup after appending the keyed row
finds exactly that row. -/
theorem find?_pair_append (rows : List (Int × PolicyFields)) (pid : Int)
    (f : PolicyFields) (h : ∀ r ∈ rows, r.1 ≠ pid) :
    (rows ++ [(pid, f)]).find? (fun r => r.1 == pid) = some (pid, f) := by
  rw [List.find?_append, List.find?_eq_none.mpr (fun x hx => by simp [h x hx])]
  simp

/-- On rows none of which carry the key, lookup misses. -/
theorem find?_pair_none (rows : List (Int × PolicyFields)) (pid : Int)
    (h : ∀ r ∈ rows, r.1 ≠ pid) :
    rows.find? (fun r => r.1 == pid) = none :=
  List.find?_eq_none.mpr fun x hx => by simp [h x hx]

/-- Overwriting by key touches exactly the appended keyed row. -/
theorem map_replace_pair (rows : List (Int × PolicyFields)) (pid : Int)
    (f g : PolicyFields) (h : ∀ r ∈ rows, r.1 ≠ pid) :
    ((rows ++ [(pid, f)]).map fun r => if r.1 == pid then (r.1, g) else r)
      = rows ++ [(pid, g)] := by
  induction rows with
  | nil => simp
  | cons a t ih =>
    have ha : ¬(a.1 == pid) = true := by simp [h a (List.mem_cons_self a t)]
    simp only [List.cons_append, List.map_cons, if_neg ha]
    rw [ih (fun r hr => h r (List.mem_cons_of_mem a hr))]

/-- Deleting by key removes exactly the appended keyed row. -/
theorem filter_ne_pair (rows : List (Int × PolicyFields)) (pid : Int)
    (f : PolicyFields) (h : ∀ r ∈ rows, r.1 ≠ pid) :
    ((rows ++ [(pid, f)]).filter fun r => !(r.1 == pid)) = rows := by
  induction rows with
  | nil => simp
  | cons a t ih =>
    have ha : (a.1 == pid) = false := by simp [h a (List.mem_cons_self a t)]
    simp only [List.cons_append, List.filter_cons, ha, Bool.not_false]
    rw [ih (fun r hr => h r (List.mem_cons_of_mem a hr))]
    simp

/-- Claim C6: on a table whose row ids are all below the autoincrement
counter, creating a payload assigns the server-side id (whatever id the
client supplied), a GET on that id returns every accepted field unchanged, a
PUT with modified fields makes a subsequent GET return the modifications, and
a DELETE followed by a GET on the same id returns 404. -/
theorem C6_crud_round_trip (db : PolicyTable) (p q : PolicySchema)
    (hfresh : ∀ r ∈ db.rows, r.1 < db.nextId) :
    (create_policy db p).2.id = some db.nextId ∧
    (∀ cid : Option Int,
      create_policy db { id := cid, fields := p.fields } = create_policy db p) ∧
    get_policy (create_policy db p).1 db.nextId
      = .ok { id := some db.nextId, fields := p.fields } ∧
    (∃ db2 ret, update_policy (create_policy db p).1 db.nextId q = .ok (db2, ret) ∧
      get_policy db2 db.nextId = .ok { id := some db.nextId, fields := q.fields } ∧
      ∃ db3, delete_policy db2 db.nextId = .ok db3 ∧
        get_policy db3 db.nextId = .error 404) := by
  have hne : ∀ r ∈ db.rows, r.1 ≠ db.nextId := fun r hr => ne_of_lt (hfresh r hr)
  refine ⟨rfl, fun cid => rfl, ?_, ?_⟩
  · unfold get_policy create_policy
    rw [find?_pair_append db.rows db.nextId p.fields hne]
  · refine ⟨{ nextId := db.nextId + 1, rows := db.rows ++ [(db.nextId, q.fields)] },
      { id := some db.nextId, fields := q.fields }, ?_, ?_, ?_⟩
    · unfold update_policy create_policy
      rw [find?_pair_append db.rows db.nextId p.fields hne,
        map_replace_pair db.rows db.nextId p.fields q.fields hne]
    · unfold get_policy
      rw [find?_pair_append db.rows db.nextId q.fields hne]
    · refine ⟨{ nextId := db.nextId + 1, rows := db.rows }, ?_, ?_⟩
      · unfold delete_policy
        rw [find?_pair_append db.rows db.nextId q.fields hne,
          filter_ne_pair db.rows db.nextId q.fields hne]
      · unfold get_policy
        rw [find?_pair_none db.rows db.nextId hne]

/-- The empty policies table. -/
def emptyTable : PolicyTable := { nextId := 1, rows := [] }

/-- A create payload carrying a client-supplied id (to be ignored). -/
def createPayload : PolicySchema := { id := some 999, fields := samplePolicyFields }

/-- An update payload flipping the status to `ENACTED`. -/
def updatePayload : PolicySchema :=
  { id := none, fields := { samplePolicyFields with status := .ENACTED } }

/-- Witness for C6: the full round trip on the empty table — the client id
999 is ignored and id 1 assigned, GET echoes the created fields, PUT flips
the status on a subsequent GET, DELETE then GET yields 404. -/
theorem C6_crud_round_trip_witness :
    (create_policy emptyTable createPayload).2.id = some 1 ∧
    get_policy (create_policy emptyTable createPayload).1 1
      = .ok { id := some 1, fields := createPayload.fields } ∧
    update_policy (create_policy emptyTable createPayload).1 1 updatePayload
      = .ok ({ nextId := 2, rows := [(1, updatePayload.fields)] },
             { id := some 1, fields := updatePayload.fields }) ∧
    get_policy { nextId := 2, rows := [(1, updatePayload.fields)] } 1
      = .ok { id := some 1, fields := updatePayload.fields } ∧
    delete_policy { nextId := 2, rows := [(1, updatePayload.fields)] } 1
      = .ok { nextId := 2, rows := [] } ∧
    get_policy { nextId := 2, rows := ([] : List (Int × PolicyFields)) } 1
      = .error 404 :=
  ⟨(C6_crud_round_trip emptyTable createPayload updatePayload (by simp [emptyTable])).1,
   (C6_crud_round_trip emptyTable createPayload updatePayload (by simp [emptyTable])).2.2.1,
   rfl, rfl, rfl, rfl⟩

/-! ### Listing with filters and pagination (`get_policies`, lines 17-52),
analytics filter (lines 169-176), changes listing (lines 135-145) -/

/-- SQL `column <= constant` on a nullable date column. -/
def sqlLeDate (o : Option Int) (c : Int) : Bool :=
  match o with
  | none => false
  | some d => decide (d ≤ c)

/-- Line 37: JSONB `Policy.affected_industries.contains([industry])` — a
`NULL` column contains nothing. -/
def industryContains (tags : Option (List String)) (s : String) : Bool :=
  match tags with
  | none => false
  | some l => l.contains s

/-- Lines 31-45 of `get_policies`: the conditional `.filter()` chain.  Each
optional parameter is gated by Python truthiness (`if jurisdiction:` etc.):
`None` and the empty string are falsy, the integer 0 is falsy, a `datetime`
is always truthy.  The status filter compares the stored enum *name*. -/
def policies_query (db : List PolicyRow) (jurisdiction industry status : Option String)
    (category_id : Option Int) (start_date end_date : Option Int) : List PolicyRow :=
  let q := db
  let q := match jurisdiction with
    | some s => if s.isEmpty then q else q.filter fun p => p.fields.jurisdiction == s
    | none => q
  let q := match industry with
    | some s => if s.isEmpty then q
                else q.filter fun p => industryContains p.fields.affected_industries s
    | none => q
  let q := match status with
    | some s => if s.isEmpty then q else q.filter fun p => statusName p.fields.status == s
    | none => q
  let q := match category_id with
    | some c => if c == 0 then q else q.filter fun p => p.fields.category_id == some c
    | none => q
  let q := match start_date with
    | some d => q.filter fun p => sqlGeDate p.fields.proposed_date d
    | none => q
  let q := match end_date with
    | some d => q.filter fun p => sqlLeDate p.fields.proposed_date d
    | none => q
  q

/-- Lines 18-21 and 48: FastAPI enforces the declared `Query(0, ge=0)` and
`Query(100, ge=1, le=1000)` bounds before the handler runs, rejecting an
out-of-range value with a 422 validation error (never clamping it); within
bounds the handler applies `offset(skip).limit(limit)`. -/
def get_policies (db : List PolicyRow) (skip limit : Int)
    (jurisdiction industry status : Option String) (category_id : Option Int)
    (start_date end_date : Option Int) : Except String (List PolicyRow) :=
  if 0 ≤ skip ∧ 1 ≤ limit ∧ limit ≤ 1000 then
    .ok (((policies_query db jurisdiction industry status category_id
            start_date end_date).drop skip.toNat).take limit.toNat)
  else .error "validation error"

/-- Lines 169-176 of `get_policy_analytics_summary`: the filtered fetch the
summary statistics are computed over. -/
def summary_query (db : List PolicyRow) (jurisdiction : Option String)
    (start_date end_date : Option Int) : List PolicyRow :=
  let q := db
  let q := match jurisdiction with
    | some s => if s.isEmpty then q else q.filter fun p => p.fields.jurisdiction == s
    | none => q
  let q := match start_date with
    | some d => q.filter fun p => sqlGeDate p.fields.proposed_date d
    | none => q
  let q := match end_date with
    | some d => q.filter fun p => sqlLeDate p.fields.proposed_date d
    | none => q
  q

/-- Claim C7: a listing request whose skip or limit falls outside the
declared bounds (skip < 0, limit < 1, or limit > 1000) is rejected with a
validation error; the value is never silently clamped into range. -/
theorem C7_pagination_bounds_rejected (db : List PolicyRow) (skip limit : Int)
    (jurisdiction industry status : Option String) (category_id : Option Int)
    (start_date end_date : Option Int)
    (h : skip < 0 ∨ limit < 1 ∨ limit > 1000) :
    get_policies db skip limit jurisdiction industry status category_id
      start_date end_date = .error "validation error" := by
  unfold get_policies
  rw [if_neg]
  rintro ⟨h0, h1, h2⟩
  rcases h with h | h | h <;> omega

/-- Witness for C7: a negative skip and an over-limit are both rejected. -/
theorem C7_pagination_bounds_rejected_witness :
    get_policies [] (-1) 100 none none none none none none
      = .error "validation error" ∧
    get_policies [] 0 1001 none none none none none none
      = .error "validation error" :=
  ⟨C7_pagination_bounds_rejected [] (-1) 100 none none none none none none
      (Or.inl (by norm_num)),
   C7_pagination_bounds_rejected [] 0 1001 none none none none none none
      (Or.inr (Or.inr (by norm_num)))⟩

/-- Claim C9: a filter parameter supplied with a falsy value — `category_id`
equal to 0, or an empty string for jurisdiction, industry, or status — is
treated exactly like an absent parameter, both in the listing and in the
analytics summary. -/
theorem C9_falsy_filters_are_absent :
    (∀ (db : List PolicyRow) (skip limit : Int) (i st : Option String)
        (cid : Option Int) (sd ed : Option Int),
      get_policies db skip limit (some "") i st cid sd ed
        = get_policies db skip limit none i st cid sd ed) ∧
    (∀ (db : List PolicyRow) (skip limit : Int) (j st : Option String)
        (cid : Option Int) (sd ed : Option Int),
      get_policies db skip limit j (some "") st cid sd ed
        = get_policies db skip limit j none st cid sd ed) ∧
    (∀ (db : List PolicyRow) (skip limit : Int) (j i : Option String)
        (cid : Option Int) (sd ed : Option Int),
      get_policies db skip limit j i (some "") cid sd ed
        = get_policies db skip limit j i none cid sd ed) ∧
    (∀ (db : List PolicyRow) (skip limit : Int) (j i st : Option String)
        (sd ed : Option Int),
      get_policies db skip limit j i st (some 0) sd ed
        = get_policies db skip limit j i st none sd ed) ∧
    (∀ (db : List PolicyRow) (sd ed : Option Int),
      summary_query db (some "") sd ed = summary_query db none sd ed) :=
  ⟨fun _ _ _ _ _ _ _ _ => rfl, fun _ _ _ _ _ _ _ _ => rfl,
   fun _ _ _ _ _ _ _ _ => rfl, fun _ _ _ _ _ _ _ _ => rfl,
   fun _ _ _ => rfl⟩

/-- A `PolicyChange` row (`src/data/models/policy.py` lines 87-105). -/
structure PolicyChangeRow where
  id : Int
  policy_id : Int
  change_type : String
  change_date : Int
  change_description : Option String
  impact_magnitude : Option ℚ
  impact_direction : Option String
  source_document : Option String
  legislative_session : Option String
deriving DecidableEq, Repr

/-- Lines 141-143: `db.query(PolicyChange).filter(PolicyChange.policy_id ==
policy_id).all()` — a plain collection filter with no 404 branch. -/
def get_policy_changes (policy_id : Int) (changes : List PolicyChangeRow) :
    Except Nat (List PolicyChangeRow) :=
  .ok (changes.filter fun c => c.policy_id == policy_id)

/-- Claim C10: the policy-changes listing returns the (possibly empty) list
of matching `PolicyChange` rows and never signals not-found; in particular,
under referential integrity, a `policy_id` that matches no `Policy` row
yields the empty list while the single-policy lookup yields 404. -/
theorem C10_changes_empty_not_404 (policy_id : Int) (db : PolicyTable)
    (changes : List PolicyChangeRow) :
    get_policy_changes policy_id changes
      = .ok (changes.filter fun c => c.policy_id == policy_id) ∧
    ((∀ c ∈ changes, ∃ r ∈ db.rows, r.1 = c.policy_id) →
      (∀ r ∈ db.rows, r.1 ≠ policy_id) →
      get_policy_changes policy_id changes = .ok [] ∧
      get_policy db policy_id = .error 404) := by
  refine ⟨rfl, fun hfk hmiss => ⟨?_, ?_⟩⟩
  · unfold get_policy_changes
    congr 1
    refine List.filter_eq_nil_iff.mpr fun c hc => ?_
    obtain ⟨r, hr, hid⟩ := hfk c hc
    simp [← hid, hmiss r hr]
  · unfold get_policy
    rw [find?_pair_none db.rows policy_id hmiss]

/-- A one-policy table: id 1 only. -/
def oneRowTable : PolicyTable := { nextId := 2, rows := [(1, samplePolicyFields)] }

/-- A change belonging to policy 1. -/
def sampleChange : PolicyChangeRow :=
  { id := 1
    policy_id := 1
    change_type := "amendment"
    change_date := 19800
    change_description := some "Tightened emission limits"
    impact_magnitude := some (mkRat 1 2)
    impact_direction := some "negative"
    source_document := none
    legislative_session := none }

/-- Witness for C10: the changes listing for the existing policy 1 returns
its change, while for the nonexistent policy 7 it returns the empty list even
though the single-policy lookup of 7 yields 404. -/
theorem C10_changes_empty_not_404_witness :
    get_policy_changes 1 [sampleChange] = .ok [sampleChange] ∧
    get_policy_changes 7 [sampleChange] = .ok [] ∧
    get_policy oneRowTable 7 = .error 404 :=
  ⟨(C10_changes_empty_not_404 1 oneRowTable [sampleChange]).1,
   ((C10_changes_empty_not_404 7 oneRowTable [sampleChange]).2
      (by decide) (by decide)).1,
   ((C10_changes_empty_not_404 7 oneRowTable [sampleChange]).2
      (by decide) (by decide)).2⟩

/-! ### Search (`search_policies`, lines 217-236)

Line 228-230 filters on `Policy.<field>.ilike(f"%{q}%")`, i.e. a
case-insensitive SQL `LIKE` against the pattern `%q%` with `q` interpolated
unescaped: inside the pattern `%` matches any (possibly empty) character
sequence and `_` matches exactly one character.  SQLAlchemy's `ilike(other)`
emits no `ESCAPE` clause, so PostgreSQL's default escape character applies:
a backslash makes the following pattern character literal (`\%`, `\_`, `\\`,
and also `\x` for ordinary `x`).  A pattern ending in a dangling escape is
rejected by PostgreSQL ("LIKE pattern must not end with escape character")
and can never arise from `%q%`, whose final character is a `%` that either
completes an escape pair or stands alone.  `ILIKE` is embedded as `LIKE`
over both strings lowercased. -/

/-- All suffixes of a character list, longest first (including itself and the
empty suffix). -/
def allSuffixes : List Char → List (List Char)
  | [] => [[]]
  | c :: t => (c :: t) :: allSuffixes t

/-- PostgreSQL `LIKE` pattern matching with the default backslash escape:
`\x` matches the literal `x`, `%` matches any sequence, `_` any single
character, anything else itself.  A dangling trailing escape (impossible in
a `%q%` pattern, and an error in PostgreSQL) matches nothing. -/
def likeMatch : List Char → List Char → Bool
  | [], s => s.isEmpty
  | p :: ps, s =>
    if p = '\\' then
      match ps with
      | [] => false
      | e :: ps' =>
        match s with
        | [] => false
        | d :: t => (e == d) && likeMatch ps' t
    else if p = '%' then (allSuffixes s).any fun t => likeMatch ps t
    else if p = '_' then
      match s with
      | [] => false
      | _ :: t => likeMatch ps t
    else
      match s with
      | [] => false
      | d :: t => (p == d) && likeMatch ps t

/-- Python/SQL lower-casing of a string, character-wise. -/
def lowerChars (s : String) : List Char :=
  s.data.map Char.toLower

/-- The test `field ILIKE '%q%'` on a nullable column: `NULL` never matches; otherwise
`LIKE` on the lowercased pattern and value (lowercasing `f"%{q}%"` leaves the
two literal `%` in place). -/
def ilikeOpt (field : Option String) (q : String) : Bool :=
  match field with
  | none => false
  | some s => likeMatch ('%' :: (lowerChars q ++ ['%'])) (lowerChars s)

/-- Lines 227-231: the OR-combined `ilike` filter over title, description and
content summary (title is non-nullable). -/
def search_pred (q : String) (p : PolicyRow) : Bool :=
  ilikeOpt (some p.fields.title) q || ilikeOpt p.fields.description q ||
    ilikeOpt p.fields.content_summary q

/-- Line 233: filter then `offset(skip).limit(limit)` (bounds validated as in
`get_policies`). -/
def search_policies (q : String) (skip limit : Nat) (db : List PolicyRow) :
    List PolicyRow :=
  ((db.filter (search_pred q)).drop skip).take limit

/-- Prefix test on character lists (spec side of the comparison). -/
def headMatch : List Char → List Char → Bool
  | [], _ => true
  | _ :: _, [] => false
  | a :: n, b :: h => (a == b) && headMatch n h

/-- Contiguous-substring test on character lists (spec side). -/
def subAt (n : List Char) (hay : List Char) : Bool :=
  (allSuffixes hay).any fun t => headMatch n t

/-- Modelled from the spec: "substring, case-insensitive match" — `q` occurs
as a case-insensitive substring of the (non-null) field. -/
def ciContains (field : Option String) (q : String) : Bool :=
  match field with
  | none => false
  | some s => subAt (lowerChars q) (lowerChars s)

/-- Modelled from the spec: "match across title, description, and summary
fields, OR-combined". -/
def spec_search_match (q : String) (p : PolicyRow) : Bool :=
  ciContains (some p.fields.title) q || ciContains p.fields.description q ||
    ciContains p.fields.content_summary q

/-- Membership in `allSuffixes` is exactly the suffix property. -/
theorem mem_allSuffixes (s t : List Char) : t ∈ allSuffixes s ↔ ∃ a, s = a ++ t := by
  induction s with
  | nil =>
    constructor
    · intro h
      have ht : t = [] := by simpa [allSuffixes] using h
      exact ⟨[], by simp [ht]⟩
    · rintro ⟨a, ha⟩
      have : t = [] := (List.append_eq_nil.mp ha.symm).2
      simp [allSuffixes, this]
  | cons c s ih =>
    constructor
    · intro h
      rcases (by simpa [allSuffixes] using h : t = c :: s ∨ t ∈ allSuffixes s) with h1 | h2
      · exact ⟨[], by rw [h1]; rfl⟩
      · obtain ⟨a, ha⟩ := ih.mp h2
        exact ⟨c :: a, by rw [List.cons_append, ← ha]⟩
    · rintro ⟨a, ha⟩
      cases a with
      | nil =>
        simp only [List.nil_append] at ha
        simp [allSuffixes, ha]
      | cons x a' =>
        rw [List.cons_append] at ha
        injection ha with h1 h2
        have := ih.mpr ⟨a', h2⟩
        simp [allSuffixes, this]

/-- The test `headMatch` decides the prefix property. -/
theorem headMatch_iff (n : List Char) : ∀ h : List Char,
    headMatch n h = true ↔ ∃ t, h = n ++ t := by
  induction n with
  | nil => intro h; simp [headMatch]
  | cons a n ih =>
    intro h
    cases h with
    | nil => simp [headMatch]
    | cons b h' =>
      rw [show headMatch (a :: n) (b :: h') = ((a == b) && headMatch n h') from rfl]
      constructor
      · intro hm
        have hparts := (Bool.and_eq_true _ _).mp hm
        obtain ⟨t, ht⟩ := (ih h').mp hparts.2
        exact ⟨t, by rw [← beq_iff_eq.mp hparts.1, ht]; rfl⟩
      · rintro ⟨t, ht⟩
        rw [List.cons_append] at ht
        injection ht with e1 e2
        exact (Bool.and_eq_true _ _).mpr
          ⟨beq_iff_eq.mpr e1.symm, (ih h').mpr ⟨t, e2⟩⟩

/-- The test `subAt` decides the contiguous-substring property. -/
theorem subAt_iff (n hay : List Char) :
    subAt n hay = true ↔ ∃ a b, hay = a ++ n ++ b := by
  unfold subAt
  rw [List.any_eq_true]
  constructor
  · rintro ⟨t, ht, hm⟩
    obtain ⟨a, ha⟩ := (mem_allSuffixes hay t).mp ht
    obtain ⟨b, hb⟩ := (headMatch_iff n t).mp hm
    exact ⟨a, b, by rw [ha, hb, List.append_assoc]⟩
  · rintro ⟨a, b, hh⟩
    exact ⟨n ++ b,
      (mem_allSuffixes hay (n ++ b)).mpr ⟨a, by rw [hh, List.append_assoc]⟩,
      (headMatch_iff n (n ++ b)).mpr ⟨b, rfl⟩⟩

/-- Unfolding of `likeMatch` at a non-escape head character. -/
theorem likeMatch_cons_not_escape (p : Char) (ps s : List Char) (hp : p ≠ '\\') :
    likeMatch (p :: ps) s =
      (if p = '%' then (allSuffixes s).any fun t => likeMatch ps t
       else if p = '_' then
         match s with
         | [] => false
         | _ :: t => likeMatch ps t
       else
         match s with
         | [] => false
         | d :: t => (p == d) && likeMatch ps t) := by
  cases ps <;> simp [likeMatch, hp]

/-- A `%` at the head of a pattern matches exactly the splittings of the
target. -/
theorem likeMatch_percent (ps s : List Char) :
    likeMatch ('%' :: ps) s = true ↔ ∃ a b, s = a ++ b ∧ likeMatch ps b = true := by
  rw [show likeMatch ('%' :: ps) s = (allSuffixes s).any (fun t => likeMatch ps t) from by
    rw [likeMatch_cons_not_escape '%' ps s (by decide)]
    simp]
  rw [List.any_eq_true]
  constructor
  · rintro ⟨t, ht, hm⟩
    obtain ⟨a, ha⟩ := (mem_allSuffixes s t).mp ht
    exact ⟨a, t, ha, hm⟩
  · rintro ⟨a, b, hs, hm⟩
    exact ⟨b, (mem_allSuffixes s b).mpr ⟨a, hs⟩, hm⟩

/-- A non-wildcard, non-escape pattern character matches exactly itself at
the head. -/
theorem likeMatch_lit_cons (c : Char) (ps s : List Char) (h1 : c ≠ '%')
    (h2 : c ≠ '_') (h3 : c ≠ '\\') :
    likeMatch (c :: ps) s = true ↔ ∃ t, s = c :: t ∧ likeMatch ps t = true := by
  rw [show likeMatch (c :: ps) s
      = (match s with | [] => false | d :: t => (c == d) && likeMatch ps t) from by
    rw [likeMatch_cons_not_escape c ps s h3]
    simp [h1, h2]]
  cases s with
  | nil => simp
  | cons d t =>
    constructor
    · intro hm
      have hparts := (Bool.and_eq_true _ _).mp hm
      exact ⟨t, by rw [beq_iff_eq.mp hparts.1], hparts.2⟩
    · rintro ⟨t', ht⟩
      have he := ht.1
      injection he with e1 e2
      exact (Bool.and_eq_true _ _).mpr
        ⟨beq_iff_eq.mpr e1.symm, by rw [e2]; exact ht.2⟩

/-- A character list free of the two `LIKE` wildcards and of the default
escape character. -/
def noWild (l : List Char) : Prop :=
  ∀ c ∈ l, c ≠ '%' ∧ c ≠ '_' ∧ c ≠ '\\'

instance (l : List Char) : Decidable (noWild l) :=
  inferInstanceAs (Decidable (∀ c ∈ l, c ≠ '%' ∧ c ≠ '_' ∧ c ≠ '\\'))

/-- A wildcard- and escape-free literal segment of a pattern consumes
exactly itself. -/
theorem likeMatch_lit_append (lit : List Char) (hw : noWild lit) :
    ∀ (rest s : List Char),
      likeMatch (lit ++ rest) s = true ↔ ∃ t, s = lit ++ t ∧ likeMatch rest t = true := by
  induction lit with
  | nil => intro rest s; simp
  | cons c lit ih =>
    intro rest s
    have hc := hw c (List.mem_cons_self c lit)
    have hw' : noWild lit := fun d hd => hw d (List.mem_cons_of_mem c hd)
    rw [List.cons_append, likeMatch_lit_cons c (lit ++ rest) s hc.1 hc.2.1 hc.2.2]
    constructor
    · rintro ⟨t, hs, hm⟩
      obtain ⟨u, hu, hm'⟩ := (ih hw' rest t).mp hm
      exact ⟨u, by rw [hs, hu]; rfl, hm'⟩
    · rintro ⟨u, hs, hm⟩
      exact ⟨lit ++ u, by rw [hs]; rfl, (ih hw' rest (lit ++ u)).mpr ⟨u, rfl, hm⟩⟩

/-- A bare `%` pattern matches everything. -/
theorem likeMatch_percent_nil (t : List Char) : likeMatch ['%'] t = true :=
  (likeMatch_percent [] t).mpr ⟨t, [], by simp, rfl⟩

/-- For a wildcard- and escape-free `q`, the pattern `%q%` matches exactly
the strings containing `q` contiguously. -/
theorem likeMatch_pat_iff (q s : List Char) (hw : noWild q) :
    likeMatch ('%' :: (q ++ ['%'])) s = true ↔ ∃ a b, s = a ++ q ++ b := by
  rw [likeMatch_percent]
  constructor
  · rintro ⟨a, b, hs, hm⟩
    obtain ⟨t, ht, _⟩ := (likeMatch_lit_append q hw ['%'] b).mp hm
    exact ⟨a, t, by rw [hs, ht, List.append_assoc]⟩
  · rintro ⟨a, b, hs⟩
    exact ⟨a, q ++ b, by rw [hs, List.append_assoc],
      (likeMatch_lit_append q hw ['%'] (q ++ b)).mpr
        ⟨b, rfl, likeMatch_percent_nil b⟩⟩

/-- For a wildcard- and escape-free needle the `LIKE` pattern `%q%` and the
substring test agree. -/
theorem likeMatch_eq_subAt (q s : List Char) (hw : noWild q) :
    likeMatch ('%' :: (q ++ ['%'])) s = subAt q s :=
  Bool.coe_iff_coe.mp ((likeMatch_pat_iff q s hw).trans (subAt_iff q s).symm)

/-- Sanity check of the escape semantics: the pattern `%a\b%` matches a value
containing `ab` (the escaped `b` is the literal `b`) and does not match a
value containing the literal characters `a\b`. -/
theorem likeMatch_escape_eval :
    likeMatch ('%' :: (['a', '\\', 'b'] ++ ['%'])) "xaby".data = true ∧
    likeMatch ('%' :: (['a', '\\', 'b'] ++ ['%'])) "xa\\by".data = false :=
  ⟨rfl, rfl⟩

/-- Applying `Char.ofNat` below the surrogate range round-trips through `toNat`. -/
theorem ofNat_toNat_small (n : Nat) (h : n < 55296) : (Char.ofNat n).toNat = n := by
  simp only [Char.ofNat, Char.ofNatAux, Char.toNat]
  rw [dif_pos (Or.inl h)]
  simp [UInt32.toNat, UInt32.ofNat, BitVec.toNat_ofNat]

/-- Lower-casing either fixes a character or lands in `'a'..'z'`. -/
theorem toLower_eq_or_range (c : Char) :
    Char.toLower c = c ∨
      (97 ≤ (Char.toLower c).toNat ∧ (Char.toLower c).toNat ≤ 122) := by
  have hdef : Char.toLower c
      = if c.toNat ≥ 65 ∧ c.toNat ≤ 90 then Char.ofNat (c.toNat + 32) else c := rfl
  rw [hdef]
  by_cases h : c.toNat ≥ 65 ∧ c.toNat ≤ 90
  · rw [if_pos h]
    right
    have := ofNat_toNat_small (c.toNat + 32) (by omega)
    omega
  · rw [if_neg h]
    left
    rfl

/-- Lower-casing never introduces a `LIKE` wildcard or the escape
character (their code points 37, 95, 92 all lie outside `'a'..'z'`). -/
theorem toLower_ne_wild (c : Char) (h1 : c ≠ '%') (h2 : c ≠ '_') (h3 : c ≠ '\\') :
    Char.toLower c ≠ '%' ∧ Char.toLower c ≠ '_' ∧ Char.toLower c ≠ '\\' := by
  rcases toLower_eq_or_range c with h | ⟨ha, hb⟩
  · rw [h]; exact ⟨h1, h2, h3⟩
  · refine ⟨fun he => ?_, fun he => ?_, fun he => ?_⟩
    · rw [he] at ha; exact absurd ha (by decide)
    · rw [he] at ha; exact absurd ha (by decide)
    · rw [he] at ha; exact absurd ha (by decide)

/-- A wildcard- and escape-free query stays so after lower-casing. -/
theorem noWild_lowerChars (q : String) (hw : noWild q.data) : noWild (lowerChars q) := by
  intro c hc
  obtain ⟨d, hd, rfl⟩ := List.mem_map.mp hc
  exact toLower_ne_wild d (hw d hd).1 (hw d hd).2.1 (hw d hd).2.2

/-- For a wildcard- and escape-free query, `ilike '%q%'` is the
case-insensitive substring test, field by field. -/
theorem ilikeOpt_eq_ciContains (field : Option String) (q : String)
    (hw : noWild q.data) : ilikeOpt field q = ciContains field q := by
  cases field with
  | none => rfl
  | some s =>
    exact likeMatch_eq_subAt (lowerChars q) (lowerChars s) (noWild_lowerChars q hw)

/-- Claim C8 (amended): for every query free of the SQL LIKE wildcards `%`
and `_` and of the default escape character `\`, the search predicate is
exactly the case-insensitive substring match across title, description and
content summary, and with `skip = 0` and a limit no smaller than the number
of matches the endpoint returns exactly the matching policies. -/
theorem C8_search_is_ci_substring (q : String) (db : List PolicyRow)
    (limit : Nat) (hw : noWild q.data)
    (hfit : (db.filter (search_pred q)).length ≤ limit) :
    search_policies q 0 limit db = db.filter (spec_search_match q) ∧
    ∀ p, search_pred q p = spec_search_match q p := by
  have key : ∀ p, search_pred q p = spec_search_match q p := by
    intro p
    unfold search_pred spec_search_match
    rw [ilikeOpt_eq_ciContains (some p.fields.title) q hw,
      ilikeOpt_eq_ciContains p.fields.description q hw,
      ilikeOpt_eq_ciContains p.fields.content_summary q hw]
  refine ⟨?_, key⟩
  unfold search_policies
  rw [List.drop_zero, List.take_of_length_le hfit,
    List.filter_congr (fun p _ => key p)]

/-- A policy matching no substring search but hit by a wildcard query. -/
def wildcardHit : PolicyRow :=
  { id := 31
    fields := { samplePolicyFields with
                  title := "Alpha"
                  description := none
                  content_summary := none } }

/-- Counterexample to C8 as stated: for the query `q = "%"`, the search
returns a policy (the unescaped `q` acts as a LIKE wildcard and `%Alpha%`
lower-cased matches `%%%`), yet `"%"` does not occur as a substring of any of
its three searched fields — so the result is not "exactly the policies for
which q occurs as a case-insensitive substring". -/
theorem C8_wildcard_counterexample :
    search_policies "%" 0 100 [wildcardHit] = [wildcardHit] ∧
    spec_search_match "%" wildcardHit = false :=
  ⟨rfl, rfl⟩

/-- Witness for the amended C8: the mixed-case query `"CARBON"` (wildcard
free) returns exactly the one policy whose description contains `"carbon"`. -/
theorem C8_search_is_ci_substring_witness :
    search_policies "CARBON" 0 100 [wildcardHit, proposedRow] = [proposedRow] := by
  have h := (C8_search_is_ci_substring "CARBON" [wildcardHit, proposedRow] 100
    (by decide) (by decide)).1
  rw [h]
  decide

end PolicyRadar
